import Mathlib

/-!
Shallow embedding of `src/app/scrapers/enrichment.py` (class `LeadEnricher`)
of the Scout repository, together with theorems settling the frozen claims
about its specification.

Conventions of the embedding:
* Python strings are Lean `String`s; most scanning work is done on `List Char`.
* Python's `re` operations are specialised, hand-translated matchers for the
  concrete regular expressions appearing in the source (the patterns are
  simple enough that greedy matching with the noted backtracking behaviour
  is deterministic; each matcher documents the pattern it implements).
* Network effects (HTTP fetch, DNS MX lookup, SMTP session, hunter.io) are
  an explicit environment `Env` of response functions; a fixed `Env` models
  one mocked network state ("determinism modulo network" in the spec).
* Python `dict` profiles are a structure of optional fields; Python
  truthiness of optional strings is `truthyO` (`None`/missing/"" falsy).
* Machine-level exceptions that the Python code can actually raise on
  in-scope inputs (the `TypeError` from comparing `None`/`str` follower
  counts against integers in `_calculate_lead_score`) are modelled with
  `Except PyErr`; all remaining code paths are total for string inputs.
-/

namespace Scout

/-- Python whitespace class `\s` (ASCII fragment, as exercised here). -/
def pySpace (c : Char) : Bool :=
  c = ' ' ∨ c = '\t' ∨ c = '\n' ∨ c = '\r' ∨ c = Char.ofNat 11 ∨ c = Char.ofNat 12

/-- Python word-character class `\w` (ASCII fragment): alphanumeric or `_`. -/
def pyWord (c : Char) : Bool := c.isAlphanum ∨ c = '_'

/-- `c` is `+` or an ASCII digit: the class kept by `re.sub(r'[^\d+]', '', s)`. -/
def plusDigit (c : Char) : Bool := c = '+' ∨ c.isDigit

/-- Does `hay` start with `needle`? -/
def startsWithL : List Char → List Char → Bool
  | [], _ => true
  | _ :: _, [] => false
  | n :: ns, h :: hs => n = h && startsWithL ns hs

/-- Substring containment on char lists (Python's `in` on strings). -/
def containsSeq (needle : List Char) : List Char → Bool
  | [] => startsWithL needle []
  | c :: cs => startsWithL needle (c :: cs) || containsSeq needle cs

/-- Python `sub in s` for strings. -/
def pyIn (sub s : String) : Bool := containsSeq sub.toList s.toList

/-- Python `s.lower()` (ASCII fragment). -/
def pyLower (s : String) : String := String.mk (s.toList.map Char.toLower)

/-- Python `s.strip()` on a char list: drop whitespace from both ends. -/
def pyStripL (l : List Char) : List Char :=
  ((l.dropWhile pySpace).reverse.dropWhile pySpace).reverse

/-- Python `s.strip()`. -/
def pyStrip (s : String) : String := String.mk (pyStripL s.toList)

/-- Python `s.rstrip(chars)` on a char list. -/
def pyRstripL (chars : List Char) (l : List Char) : List Char :=
  (l.reverse.dropWhile (fun c => chars.contains c)).reverse

/-- Python `s.rstrip(chars)`. -/
def pyRstrip (chars : List Char) (s : String) : String := String.mk (pyRstripL chars s.toList)

/-- Python `s.split()` (split on whitespace runs, dropping empty pieces). -/
def pyWords (s : String) : List String :=
  ((s.toList.splitBy (fun a b => ¬ pySpace a ∧ ¬ pySpace b)).filter
      (fun w => ¬ (w.any pySpace))).filterMap
    (fun w => if w = [] then none else some (String.mk w))

/-- Worker of `pySplitOn`. -/
def splitOnSeqA (sep : List Char) : Nat → List Char → List (List Char)
  | 0, cs => [cs]
  | fuel + 1, cs =>
    if startsWithL sep cs ∧ sep ≠ [] then [] :: splitOnSeqA sep fuel (cs.drop sep.length)
    else
      match cs with
      | [] => [[]]
      | c :: t =>
        match splitOnSeqA sep fuel t with
        | h :: r => (c :: h) :: r
        | [] => [[c]]

/-- Python `s.split(sep)` for a non-empty separator. -/
def pySplitOn (sep s : String) : List String :=
  (splitOnSeqA sep.toList (s.toList.length + 1) s.toList).map String.mk

/-- Python `s.startswith(pre)`. -/
def pyStartsWith (pre s : String) : Bool := startsWithL pre.toList s.toList

/-- Python `s.endswith(suf)`. -/
def pyEndsWith (suf s : String) : Bool :=
  startsWithL suf.toList.reverse s.toList.reverse

/-- Python `s[0]` as a one-character string (callers pass non-empty words). -/
def pyTake1 (s : String) : String := String.mk (s.toList.take 1)

/-- Truthiness of an optional Python string (`None` and `""` are falsy). -/
def truthyO : Option String → Bool
  | none => false
  | some s => s ≠ ""

/-- Python `a or b` for optional strings (first operand when truthy). -/
def pyOrO (a b : Option String) : Option String := if truthyO a then a else b

/-- The error a lead-profile value can raise in `_calculate_lead_score`. -/
inductive PyErr where
  | typeError : PyErr
deriving DecidableEq, Repr

/-- A Python value that may sit in the `follower_count` slot. -/
inductive PyNum where
  | int : Int → PyNum
  | noneV : PyNum
  | str : String → PyNum
deriving DecidableEq, Repr

/-- Input profile (`LeadProfile`): the fields read by `enrich_lead`.
`none` stands for an absent key or a `None` value (interchangeable for the
string fields, which are only used through truthiness and `.get(k, '')`);
for `follower_count` the absent key and `None` differ and are kept apart
(`none` = absent, `some .noneV` = present and `None`). -/
structure Lead where
  full_name : Option String := none
  bio : Option String := none
  website : Option String := none
  company : Option String := none
  headline : Option String := none
  follower_count : Option PyNum := none
  is_verified : Bool := false
deriving DecidableEq, Repr

/-- Output record (`EnrichedLead`): the input copy plus the keys
`enrich_lead` may add. -/
structure Enriched where
  base : Lead
  phone : Option String := none
  company_domain : Option String := none
  email : Option String := none
  email_score : Option Int := none
  email_source : Option String := none
  email_verified : Option Bool := none
  possible_emails : Option (List String) := none
  lead_score : Option Int := none
deriving DecidableEq, Repr

/-- Outcome of one SMTP session against a mail host for a candidate address:
either a caught connection-class exception before the candidate `RCPT`
response is read, a caught exception after it (while probing the random
nonexistent address), or a completed session with both response codes. -/
inductive SmtpPhase where
  | failBefore : SmtpPhase
  | failBetween (code : Nat) : SmtpPhase
  | complete (code code2 : Nat) : SmtpPhase
deriving DecidableEq, Repr

/-- The network environment: responses of the external collaborators.
`fetch` returns the body of a 200 response of `_fetch_page` (`none` covers
errors and non-200 statuses), `mx` the chosen lowest-preference MX host of
`dns.resolver.resolve(domain, 'MX')` (`none` = exception), `smtp` the SMTP
session outcome per (MX host, candidate address), `hunterFind` the `email`
field of the hunter.io response (`none` = missing or request error). -/
structure Env where
  fetch : String → Option String
  mx : String → Option String
  smtp : String → String → SmtpPhase
  hunterKey : Option String := none
  hunterFind : String → String → String → Option String := fun _ _ _ => none

/-- Result record of `_verify_email_smtp`. -/
structure SmtpResult where
  exists' : Bool
  accept_all : Bool
  score : Int
deriving DecidableEq, Repr

/-- `LeadEnricher._verify_email_smtp`: MX lookup, then an SMTP probe of the
candidate followed by a probe of `zzznonexistent999@<domain>`. -/
def verifyEmailSmtp (env : Env) (email : String) : SmtpResult :=
  let parts := pySplitOn "@" email
  if parts.length ≠ 2 ∨ parts.getD 1 "" = "" then
    ⟨false, false, 0⟩
  else
    let domain := parts.getD 1 ""
    match env.mx domain with
    | none => ⟨false, false, 0⟩
    | some mxHost =>
      match env.smtp mxHost email with
      | .failBefore => ⟨false, false, 10 + 20⟩
      | .failBetween code =>
          if code = 250 then ⟨true, false, 10 + 80 + 20⟩ else ⟨false, false, 10 + 20⟩
      | .complete code code2 =>
          let ex := code = 250
          let s1 : Int := if ex then 10 + 80 else 10
          if code2 = 250 then ⟨ex, true, max (s1 - 40) 30⟩ else ⟨ex, false, s1⟩

/-- Scored candidate record of `_score_and_verify_email`. -/
structure ScoredEmail where
  email : String
  score : Int
  source : String
  verified : Bool
  accept_all : Bool
deriving DecidableEq, Repr

/-- `LeadEnricher._score_and_verify_email` (the `pattern_match` parameter is
accepted and unused, as in the source). -/
def scoreAndVerifyEmail (env : Env) (email source : String)
    (patternMatch : Bool := false) (siteEmailsCount : Nat := 0) : ScoredEmail :=
  let base : Int :=
    if source = "bio" then 90
    else if source = "website" then 70
    else if source = "contact_page" then 60
    else if source = "hunter.io" then 80
    else if source = "smtp_guess" then 70
    else if source = "bio_link" then 65
    else if source = "pattern" then
      40 + (if siteEmailsCount ≥ 3 then 15 else if siteEmailsCount ≥ 1 then 10 else 0)
    else 0
  let smtpResult := verifyEmailSmtp env email
  let s := base + (if smtpResult.exists' then 10 else 0) +
    (if smtpResult.accept_all then -20 else 0)
  { email := email, score := min s 100, source := source,
    verified := smtpResult.exists', accept_all := smtpResult.accept_all }

/-! ### The email regex `EMAIL_RE`

`EMAIL_RE = r'\b[A-Za-z0-9._%+-]+@[A-Za-z0-9.-]+\.[A-Z|a-z]{2,}\b'`
(note the literal `|` inside the TLD class).  The local-part run and the
`@` are deterministic (the class excludes `@`); the domain run and TLD run
backtrack: the engine picks the longest domain run followed by `.`, then
the longest TLD run of length ≥ 2 whose end is a word boundary, retrying
shorter splits in that (greedy) order. -/

/-- Class `[A-Za-z0-9._%+-]` of the local part. -/
def emailLocalCl (c : Char) : Bool :=
  c.isAlphanum ∨ c = '.' ∨ c = '_' ∨ c = '%' ∨ c = '+' ∨ c = '-'

/-- Class `[A-Za-z0-9.-]` of the domain part. -/
def emailDomCl (c : Char) : Bool := c.isAlphanum ∨ c = '.' ∨ c = '-'

/-- Class `[A-Z|a-z]` of the TLD part. -/
def emailTldCl (c : Char) : Bool := c.isAlpha ∨ c = '|'

/-- Greedy search for the TLD length `t ≥ 2` (counting down from the longest
TLD-class run) such that the trailing `\b` holds after `t` characters of
`tailJ`. -/
def emailTSearch (tailJ : List Char) : Nat → Option Nat
  | 0 => none
  | 1 => none
  | tm2 + 2 =>
    let t := tm2 + 2
    let lastW := ((tailJ.get? (t - 1)).map pyWord).getD false
    let nextW := ((tailJ.get? t).map pyWord).getD false
    if lastW ≠ nextW then some t else emailTSearch tailJ (tm2 + 1)

/-- Greedy search (counting `j` down) for a split of the domain characters
into `[A-Za-z0-9.-]{j}` `.` `TLD{t}` with the trailing boundary; mirrors the
backtracking of `[A-Za-z0-9.-]+\.[A-Z|a-z]{2,}\b`. -/
def emailJSearch (domChars : List Char) : Nat → Option (Nat × Nat)
  | 0 => none
  | 1 => none
  | jc + 2 =>
    let j := jc + 1
    (if domChars.get? j = some '.' then
      let tailJ := domChars.drop (j + 1)
      let tr := tailJ.takeWhile emailTldCl
      match emailTSearch tailJ tr.length with
      | some t => some (j, t)
      | none => none
    else none).orElse (fun _ => emailJSearch domChars j)

/-- One attempted `EMAIL_RE` match at the current position, given whether the
previous character was a word character (for the leading `\b`).  Returns the
matched text and the remaining characters. -/
def emailMatchAt (prevW : Bool) (cs : List Char) : Option (List Char × List Char) :=
  match cs with
  | [] => none
  | c1 :: _ =>
    if pyWord c1 = prevW then none
    else
      let r1 := cs.takeWhile emailLocalCl
      if r1 = [] then none
      else
        match cs.drop r1.length with
        | '@' :: domChars =>
          let ds := domChars.takeWhile emailDomCl
          match emailJSearch domChars ds.length with
          | some (j, t) =>
            some (r1 ++ '@' :: domChars.take (j + 1 + t), domChars.drop (j + 1 + t))
          | none => none
        | _ => none

/-- `re.findall(EMAIL_RE, ·)`: left-to-right scan collecting non-overlapping
matches. -/
def emailScanA : Nat → Bool → List Char → List String
  | 0, _, _ => []
  | fuel + 1, prevW, cs =>
    match emailMatchAt prevW cs with
    | some (mt, rest) =>
      String.mk mt :: emailScanA fuel (((mt.getLast?).map pyWord).getD false) rest
    | none =>
      match cs with
      | [] => []
      | c :: t => emailScanA fuel (pyWord c) t

/-- All `EMAIL_RE` matches of a string. -/
def emailFindall (s : String) : List String :=
  emailScanA (s.toList.length + 1) false s.toList

/-- Module constant `EMAIL_BLACKLIST`. -/
def EMAIL_BLACKLIST : List String :=
  ["example.com", "test.com", "email.com", "youremail.com",
   "sentry.io", "wixpress.com", "googleapis.com", "w3.org",
   "schema.org", "gravatar.com", "wordpress.com"]

/-- Module constant `FILE_EXT_BLACKLIST`. -/
def FILE_EXT_BLACKLIST : List String :=
  [".png", ".jpg", ".gif", ".css", ".js", ".svg", ".webp", ".ico"]

/-- `LeadEnricher._is_valid_email`: substring blacklist test on the lowered
address, then a suffix test against the file-extension list. -/
def isValidEmail (email : String) : Bool :=
  let lower := pyLower email
  if EMAIL_BLACKLIST.any (fun b => pyIn b lower) then false
  else if FILE_EXT_BLACKLIST.any (fun ext => pyEndsWith ext lower) then false
  else true

/-! ### Phone extraction (`_extract_phone_from_text`) -/

/-- Class `[+\d\s\-().]` captured after `tel:`. -/
def telCl (c : Char) : Bool :=
  c = '+' ∨ c.isDigit ∨ pySpace c ∨ c = '-' ∨ c = '(' ∨ c = ')' ∨ c = '.'

/-- One attempted match of `href=["\']tel:([+\d\s\-().]+)` at the current
position; returns the capture and the characters after the whole match. -/
def telMatchAt (cs : List Char) : Option (List Char × List Char) :=
  if startsWithL "href=".toList cs then
    match cs.drop 5 with
    | q :: rest =>
      if q = '"' ∨ q = Char.ofNat 39 then
        if startsWithL "tel:".toList rest then
          let cap := (rest.drop 4).takeWhile telCl
          if cap = [] then none
          else some (cap, (rest.drop 4).drop cap.length)
        else none
      else none
    | [] => none
  else none

/-- One attempted match of `(?:wa\.me|api\.whatsapp\.com/send\?phone=)(\d+)`
at the current position (the alternation carries no `/` after `wa.me`);
returns the digit capture and the characters after the whole match. -/
def waMatchAt (cs : List Char) : Option (List Char × List Char) :=
  if startsWithL "wa.me".toList cs then
    let d := (cs.drop 5).takeWhile Char.isDigit
    if d = [] then none else some (d, (cs.drop 5).drop d.length)
  else if startsWithL "api.whatsapp.com/send?phone=".toList cs then
    let d := (cs.drop 28).takeWhile Char.isDigit
    if d = [] then none else some (d, (cs.drop 28).drop d.length)
  else none

/-- Scan loop shared by the `tel:` branch and the visible-text patterns:
find the next match, keep it iff its `[^\d+]`-stripped form has length in
`[10,15]`, in which case the `strip()`ped candidate is returned; otherwise
continue after the match. -/
def scanPhoneA (m : List Char → Option (List Char × List Char)) :
    Nat → List Char → Option String
  | 0, _ => none
  | fuel + 1, cs =>
    match m cs with
    | some (cand, rest) =>
      let clean := cand.filter plusDigit
      if 10 ≤ clean.length ∧ clean.length ≤ 15 then some (String.mk (pyStripL cand))
      else scanPhoneA m fuel rest
    | none =>
      match cs with
      | [] => none
      | _ :: t => scanPhoneA m fuel t

/-- Scan loop of the WhatsApp branch: a digit capture of length in `[10,15]`
is returned prefixed with `+`. -/
def scanWaA : Nat → List Char → Option String
  | 0, _ => none
  | fuel + 1, cs =>
    match waMatchAt cs with
    | some (d, rest) =>
      if 10 ≤ d.length ∧ d.length ≤ 15 then some ("+" ++ String.mk d)
      else scanWaA fuel rest
    | none =>
      match cs with
      | [] => none
      | _ :: t => scanWaA fuel t

/-- First occurrence search used by `.*?</script>`: number of characters
consumed up to and including the first occurrence of `close`. -/
def findTermin (close : List Char) : Nat → List Char → Option Nat
  | 0, _ => none
  | fuel + 1, cs =>
    if startsWithL close cs then some close.length
    else
      match cs with
      | [] => none
      | _ :: t => (findTermin close fuel t).map (· + 1)

/-- `re.sub(r'<tag[^>]*>.*?</tag>', '', ·, flags=re.DOTALL)` for a concrete
opening prefix (e.g. `<script`) and closing literal (e.g. `</script>`).
An unterminated block is left in place, as the regex then fails to match. -/
def removeBlockA (openTag close : List Char) : Nat → List Char → List Char
  | 0, cs => cs
  | fuel + 1, [] => []
  | fuel + 1, c :: t =>
    if startsWithL openTag (c :: t) then
      let afterOpen := (c :: t).drop openTag.length
      let attrs := afterOpen.takeWhile (fun ch => ch ≠ '>')
      match afterOpen.drop attrs.length with
      | '>' :: body =>
        match findTermin close (body.length + 1) body with
        | some n => removeBlockA openTag close fuel (body.drop n)
        | none => c :: removeBlockA openTag close fuel t
      | _ => c :: removeBlockA openTag close fuel t
    else c :: removeBlockA openTag close fuel t

/-- `re.sub(r'<[^>]+>', ' ', ·)`. -/
def stripTagsA : Nat → List Char → List Char
  | 0, cs => cs
  | _ + 1, [] => []
  | fuel + 1, c :: t =>
    if c = '<' then
      let inner := t.takeWhile (fun ch => ch ≠ '>')
      if inner ≠ [] then
        match t.drop inner.length with
        | '>' :: rest => ' ' :: stripTagsA fuel rest
        | _ => c :: stripTagsA fuel t
      else c :: stripTagsA fuel t
    else c :: stripTagsA fuel t

/-- `re.sub(r'\s+', ' ', ·)`. -/
def collapseWsA : Nat → List Char → List Char
  | 0, cs => cs
  | _ + 1, [] => []
  | fuel + 1, c :: t =>
    if pySpace c then ' ' :: collapseWsA fuel (t.dropWhile pySpace)
    else c :: collapseWsA fuel t

/-- The visible text: scripts and styles removed, tags collapsed to spaces,
whitespace runs collapsed. -/
def visibleText (cs : List Char) : List Char :=
  let a := removeBlockA "<script".toList "</script>".toList (cs.length + 1) cs
  let b := removeBlockA "<style".toList "</style>".toList (a.length + 1) a
  let c := stripTagsA (b.length + 1) b
  collapseWsA (c.length + 1) c

/-- Separator class `[-.\s]` of the visible phone patterns. -/
def sepCl (c : Char) : Bool := c = '-' ∨ c = '.' ∨ pySpace c

/-- Consume at most one character of class `p` (an optional `X?` element). -/
def optCl (p : Char → Bool) : List Char → List Char × List Char
  | [] => ([], [])
  | c :: t => if p c then ([c], t) else ([], c :: t)

/-- Consume exactly `n` digits. -/
def digitsN : Nat → List Char → Option (List Char × List Char)
  | 0, l => some ([], l)
  | _ + 1, [] => none
  | n + 1, c :: t =>
    if c.isDigit then (digitsN n t).map (fun p => (c :: p.1, p.2)) else none

/-- `\+1[-.\s]?\(?\d{3}\)?[-.\s]?\d{3}[-.\s]?\d{4}` at the current position
(no groups, so the full match is the candidate). -/
def matchP1 (cs : List Char) : Option (List Char × List Char) :=
  match cs with
  | '+' :: '1' :: r1 =>
    let (s1, r2) := optCl sepCl r1
    let (s2, r3) := optCl (fun c => c = '(') r2
    match digitsN 3 r3 with
    | some (d1, r4) =>
      let (s3, r5) := optCl (fun c => c = ')') r4
      let (s4, r6) := optCl sepCl r5
      match digitsN 3 r6 with
      | some (d2, r7) =>
        let (s5, r8) := optCl sepCl r7
        match digitsN 4 r8 with
        | some (d3, r9) =>
          some ('+' :: '1' :: (s1 ++ s2 ++ d1 ++ s3 ++ s4 ++ d2 ++ s5 ++ d3), r9)
        | none => none
      | none => none
    | none => none
  | _ => none

/-- `\+?\d{1,3}[-.\s]\(?\d{3}\)[-.\s]?\d{3}[-.\s]?\d{4}` at the current
position.  The greedy `\d{1,3}` can succeed only by taking the whole digit
run (which must have length 1–3) followed by a mandatory separator. -/
def matchP2 (cs : List Char) : Option (List Char × List Char) :=
  let (pl, r1) := optCl (fun c => c = '+') cs
  let d := r1.takeWhile Char.isDigit
  if 1 ≤ d.length ∧ d.length ≤ 3 then
    match r1.drop d.length with
    | s :: r2 =>
      if sepCl s then
        let (par, r3) := optCl (fun c => c = '(') r2
        match digitsN 3 r3 with
        | some (d1, r4) =>
          match r4 with
          | ')' :: r5 =>
            let (s1, r6) := optCl sepCl r5
            match digitsN 3 r6 with
            | some (d2, r7) =>
              let (s2, r8) := optCl sepCl r7
              match digitsN 4 r8 with
              | some (d3, r9) =>
                some (pl ++ d ++ s :: (par ++ d1 ++ ')' :: (s1 ++ d2 ++ s2 ++ d3)), r9)
              | none => none
            | none => none
          | _ => none
        | none => none
      else none
    | [] => none
  else none

/-- `\(\d{3}\)[-.\s]?\d{3}[-.\s]?\d{4}` at the current position. -/
def matchP3 (cs : List Char) : Option (List Char × List Char) :=
  match cs with
  | '(' :: r1 =>
    match digitsN 3 r1 with
    | some (d1, r2) =>
      match r2 with
      | ')' :: r3 =>
        let (s1, r4) := optCl sepCl r3
        match digitsN 3 r4 with
        | some (d2, r5) =>
          let (s2, r6) := optCl sepCl r5
          match digitsN 4 r6 with
          | some (d3, r7) => some ('(' :: (d1 ++ ')' :: (s1 ++ d2 ++ s2 ++ d3)), r7)
          | none => none
        | none => none
      | _ => none
    | none => none
  | _ => none

/-- The `tel:`-link stage of `_extract_phone_from_text`. -/
def telStage (cs : List Char) : Option String := scanPhoneA telMatchAt (cs.length + 1) cs

/-- The WhatsApp-link stage of `_extract_phone_from_text`. -/
def waStage (cs : List Char) : Option String := scanWaA (cs.length + 1) cs

/-- The visible-text stage: the three patterns tried in order over the
cleaned text, every match of a pattern filtered before the next pattern. -/
def visibleStage (cs : List Char) : Option String :=
  let v := visibleText cs
  match scanPhoneA matchP1 (v.length + 1) v with
  | some p => some p
  | none =>
    match scanPhoneA matchP2 (v.length + 1) v with
    | some p => some p
    | none => scanPhoneA matchP3 (v.length + 1) v

/-- `LeadEnricher._extract_phone_from_text`: the three stages in strict
precedence order, first hit wins. -/
def extractPhoneFromText (text : String) : Option String :=
  match telStage text.toList with
  | some p => some p
  | none =>
    match waStage text.toList with
    | some p => some p
    | none => visibleStage text.toList

/-! ### Text extraction, domains, deep scraping -/

/-- Result record of `_extract_from_text` and `_scrape_link_page`. -/
structure TextContacts where
  email : Option String
  phone : Option String
deriving DecidableEq, Repr

/-- `LeadEnricher._extract_from_text`. -/
def extractFromText (text : String) : TextContacts :=
  if text = "" then ⟨none, none⟩
  else
    let valid := (emailFindall text).filter isValidEmail
    let em := if valid ≠ [] then valid.head? else none
    let ph := match extractPhoneFromText text with
      | some p => if p ≠ "" then some p else none
      | none => none
    ⟨em, ph⟩

/-- Remainder after the first occurrence of `sep`. -/
def afterSeq (sep : List Char) : List Char → Option (List Char)
  | [] => if startsWithL sep [] then some [] else none
  | c :: t =>
    if startsWithL sep (c :: t) then some ((c :: t).drop sep.length)
    else afterSeq sep t

/-- `urlparse(url).netloc` for the URLs this code builds: the text between
the first `://` and the next `/`, `?` or `#` (empty when there is no `://`,
as `urlparse` then reports no network location). -/
def urlNetloc (s : String) : String :=
  match afterSeq "://".toList s.toList with
  | none => ""
  | some after => String.mk (after.takeWhile (fun c => c ≠ '/' ∧ c ≠ '?' ∧ c ≠ '#'))

/-- Python `s.replace(pat, repl)` (all non-overlapping occurrences). -/
def replaceSeqAll (pat repl : List Char) : Nat → List Char → List Char
  | 0, cs => cs
  | _ + 1, [] => []
  | fuel + 1, c :: t =>
    if startsWithL pat (c :: t) then
      repl ++ replaceSeqAll pat repl fuel ((c :: t).drop pat.length)
    else c :: replaceSeqAll pat repl fuel t

/-- `LeadEnricher._extract_domain`: prefix `https://` when needed, take the
`netloc` (falling back to the whole string when empty), delete every
occurrence of `www.`.  The source wraps this in `try/except` returning
`None`; none of the string operations can raise, so the model is total. -/
def extractDomain (website : String) : Option String :=
  let w := if pyStartsWith "http" website then website else "https://" ++ website
  let netloc := urlNetloc w
  let d := if netloc = "" then w else netloc
  some (String.mk (replaceSeqAll "www.".toList [] (d.toList.length + 1) d.toList))

/-- Result record of `_deep_scrape_website`. -/
structure SiteInfo where
  email : Option String
  phone : Option String
  all_emails : List String
deriving DecidableEq, Repr

/-- Models Python's `list(set(xs))`: duplicates removed.  CPython's set
iteration order is unspecified (hash-dependent); first-occurrence order is
used here, and no claim depends on the order. -/
def dedupKeepFirst (l : List String) : List String :=
  l.foldl (fun acc e => if acc.contains e then acc else acc ++ [e]) []

/-- The page loop of `_deep_scrape_website`: accumulate valid emails from
every fetched page, keep the first email and first phone, stop early once
both are set (`random_delay` has no observable effect). -/
def deepScrapeGo (env : Env) : List String → Option String → Option String →
    List String → SiteInfo
  | [], em, ph, acc => ⟨em, ph, dedupKeepFirst acc⟩
  | url :: rest, em, ph, acc =>
    match env.fetch url with
    | none => deepScrapeGo env rest em ph acc
    | some html =>
      let valid := (emailFindall html).filter isValidEmail
      let acc' := acc ++ valid
      let em' := if ¬ truthyO em ∧ valid ≠ [] then valid.head? else em
      let ph' := if ¬ truthyO ph then
          match extractPhoneFromText html with
          | some p => if p ≠ "" then some p else ph
          | none => ph
        else ph
      if truthyO em' ∧ truthyO ph' then ⟨em', ph', dedupKeepFirst acc'⟩
      else deepScrapeGo env rest em' ph' acc'

/-- `LeadEnricher._deep_scrape_website`. -/
def deepScrapeWebsite (env : Env) (website : String) : SiteInfo :=
  let w := if pyStartsWith "http" website then website else "https://" ++ website
  let base := pyRstrip ['/'] w
  deepScrapeGo env
    [w, base ++ "/contact", base ++ "/contact-us", base ++ "/about", base ++ "/about-us"]
    none none []

/-! ### Pattern detection and prediction -/

/-- ASCII `[a-z]`. -/
def isLowerAZ (c : Char) : Bool := 'a' ≤ c ∧ c ≤ 'z'

/-- Drop one final newline: `$` in a Python regex (no `re.MULTILINE`)
matches at the end of the string or just before a terminal `\n`. -/
def chopFinalNl (l : List Char) : List Char :=
  if l.getLast? = some '\n' then l.dropLast else l

/-- `re.match(r'^[a-z][a-z]+$', ·)` viewed as a Boolean. -/
def matchFirstRe (s : String) : Bool :=
  let b := chopFinalNl s.toList
  2 ≤ b.length ∧ b.all isLowerAZ

/-- `re.match(r'^[a-z]\.[a-z]+$', ·)` viewed as a Boolean. -/
def matchFLastRe (s : String) : Bool :=
  match chopFinalNl s.toList with
  | c :: '.' :: rest => isLowerAZ c ∧ rest ≠ [] ∧ rest.all isLowerAZ
  | _ => false

/-- `LeadEnricher._detect_pattern`: dotted locals with exactly two pieces
classify by the first piece's length; otherwise the two `re.match` checks
run (the second being unreachable, as in the source). -/
def detectPattern (localPart : String) : Option String :=
  let viaDotted : Option String :=
    if pyIn "." localPart then
      let parts := pySplitOn "." localPart
      if parts.length = 2 then
        some (if (parts.headD "").length = 1 then "f.last" else "first.last")
      else none
    else none
  match viaDotted with
  | some p => some p
  | none =>
    if matchFirstRe localPart then some "first"
    else if matchFLastRe localPart then some "f.last"
    else none

/-- `LeadEnricher._apply_pattern`.  `first[0]` is modelled by `take 1`; the
callers only pass non-empty whitespace-split words. -/
def applyPattern (pattern first last domain : String) : Option String :=
  let templates : List (String × String) :=
    [("first.last", first ++ "." ++ last ++ "@" ++ domain),
     ("first", first ++ "@" ++ domain),
     ("f.last", pyTake1 first ++ "." ++ last ++ "@" ++ domain),
     ("flast", pyTake1 first ++ last ++ "@" ++ domain),
     ("firstlast", first ++ last ++ "@" ++ domain)]
  (templates.find? (fun p => p.1 = pattern)).map (·.2)

/-- `LeadEnricher._predict_email_from_pattern`.  Note the final conditional
of the source: both its branches `return predicted`, so the projected
address is returned even when it equals a known address at the domain. -/
def predictEmailFromPattern (fullName website : String) (siteEmails : List String) :
    Option String :=
  match extractDomain website with
  | none => none
  | some domain =>
    if domain = "" then none
    else
      let parts := pyWords (pyStrip (pyLower fullName))
      if parts.length < 2 then none
      else
        let first := parts.headD ""
        let last := parts.getLastD ""
        let domainEmails := siteEmails.filter (fun e => pyEndsWith ("@" ++ domain) (pyLower e))
        if domainEmails = [] then none
        else
          let sample := pyLower (domainEmails.headD "")
          let localPart := (pySplitOn "@" sample).headD ""
          match detectPattern localPart with
          | none => none
          | some pat =>
            let predicted := applyPattern pat first last domain
            if truthyO predicted ∧
                ¬ (domainEmails.map pyLower).contains (pyLower (predicted.getD "")) then
              predicted
            else predicted

/-! ### Company-name extraction and domain guessing -/

/-- Case-insensitive prefix test (patterns given in lowercase). -/
def ciStartsWithL : List Char → List Char → Bool
  | [], _ => true
  | _ :: _, [] => false
  | n :: ns, h :: hs => n.toLower = h.toLower && ciStartsWithL ns hs

/-- Zero-width `$`: end of string or just before a terminal newline. -/
def endDollar (cs : List Char) : Bool := cs = [] ∨ cs = ['\n']

/-- Head is one of `|`, `,`, `.`. -/
def pipeCommaDot : List Char → Bool
  | c :: _ => c = '|' ∨ c = ',' ∨ c = '.'
  | [] => false

/-- `(?:\s*[|,.]|$)` holds at this position (deterministic: the greedy `\s*`
run is followed by one of `|`, `,`, `.`, or `$` matches here). -/
def termCheck (cs : List Char) : Bool :=
  pipeCommaDot (cs.dropWhile pySpace) ∨ endDollar cs

/-- The lazy capture `(.+?)(?:\s*[|,.]|$)`: grow the capture one character
at a time (never across `\n`, as `.` does not match it) until the
terminator matches; returns the capture. -/
def capSearchA : Nat → List Char → List Char → Option (List Char)
  | 0, _, _ => none
  | fuel + 1, acc, cs =>
    match cs with
    | [] => none
    | c :: t =>
      if c = '\n' then none
      else
        let acc' := acc ++ [c]
        if termCheck t then some acc' else capSearchA fuel acc' t

/-- Role keywords of the first headline pattern (alternation is prefix-free,
hence deterministic). -/
def roleWords : List String :=
  ["ceo", "cto", "coo", "cfo", "founder", "owner", "director", "president", "partner"]

/-- `(?:CEO|...|Partner)\s+(?:of|at|@|-)\s+(.+?)(?:\s*[|,.]|$)` attempted at
the current position (case-insensitive); returns group 1. -/
def matchRoleAt (cs : List Char) : Option (List Char) :=
  match roleWords.find? (fun r => ciStartsWithL r.toList cs) with
  | none => none
  | some r =>
    let afterRole := cs.drop r.length
    let sp1 := afterRole.takeWhile pySpace
    if sp1 = [] then none
    else
      let r2 := afterRole.drop sp1.length
      match (["of", "at", "@", "-"] : List String).find? (fun w => ciStartsWithL w.toList r2) with
      | none => none
      | some w =>
        let afterConn := r2.drop w.length
        let sp2 := afterConn.takeWhile pySpace
        if sp2 = [] then none
        else capSearchA (afterConn.length + 1) [] (afterConn.drop sp2.length)

/-- `(?:at|@)\s+(.+?)(?:\s*[|,.]|$)` attempted at the current position. -/
def matchAtConnAt (cs : List Char) : Option (List Char) :=
  match (["at", "@"] : List String).find? (fun w => ciStartsWithL w.toList cs) with
  | none => none
  | some w =>
    let afterConn := cs.drop w.length
    let sp := afterConn.takeWhile pySpace
    if sp = [] then none
    else capSearchA (afterConn.length + 1) [] (afterConn.drop sp.length)

/-- `re.search` scan: leftmost position where the matcher succeeds. -/
def searchCapA (m : List Char → Option (List Char)) : Nat → List Char → Option String
  | 0, _ => none
  | fuel + 1, cs =>
    match m cs with
    | some cap => some (String.mk cap)
    | none =>
      match cs with
      | [] => none
      | _ :: t => searchCapA m fuel t

/-- Legal-suffix words of `_guess_domain` (source alternation order). -/
def legalSuffixes : List String := ["inc", "llc", "ltd", "co", "corp", "group", "holdings"]

/-- The remainder that `\.?$` leaves unconsumed (`[]`, or `['\n']` when `$`
matched just before a final newline); `none` when it fails here. -/
def dollarRem : List Char → Option (List Char)
  | '.' :: r2 => if endDollar r2 then some r2 else none
  | r => if endDollar r then some r else none

/-- `\s+(inc|llc|ltd|co|corp|group|holdings)\.?$` attempted at the current
position; returns the unconsumed remainder on success. -/
def legalTailRem (cs : List Char) : Option (List Char) :=
  let sp := cs.takeWhile pySpace
  if sp = [] then none
  else
    legalSuffixes.findSome? (fun w =>
      if ciStartsWithL w.toList (cs.drop sp.length) then
        dollarRem ((cs.drop sp.length).drop w.length)
      else none)

/-- `re.sub(r'\s+(inc|llc|ltd|co|corp|group|holdings)\.?$', '', ·, re.I)`:
leftmost match removed (nothing further can match inside the remainder). -/
def stripLegalSuffixA : Nat → List Char → List Char
  | 0, cs => cs
  | _ + 1, [] => []
  | fuel + 1, c :: t =>
    match legalTailRem (c :: t) with
    | some rem => rem
    | none => c :: stripLegalSuffixA fuel t

/-- `LeadEnricher._guess_domain`: lowercase and strip, drop a trailing legal
suffix, slugify to `[a-z0-9]`, build the `.com`/`.io`/`.co` guesses plus the
two-word concatenation, return the first with a resolvable MX record. -/
def guessDomain (env : Env) (companyName : String) : Option String :=
  let clean0 := pyStrip (pyLower companyName)
  let cleanL := stripLegalSuffixA (clean0.toList.length + 1) clean0.toList
  let clean := String.mk cleanL
  let slug := String.mk (cleanL.filter (fun c => isLowerAZ c ∨ c.isDigit))
  let guesses := [slug ++ ".com", slug ++ ".io", slug ++ ".co"] ++
    (if pyIn " " clean then
      let parts := pyWords clean
      if parts.length = 2 then [parts.headD "" ++ parts.getD 1 "" ++ ".com"] else []
    else [])
  guesses.find? (fun d => (env.mx d).isSome)

/-- `LeadEnricher._find_company_domain`: candidate names from `company` and
`headline` (marker splits, then the two regex searches), case-insensitive
dedup with short names dropped, first three names tried against
`_guess_domain` (the source also reads `bio` but never uses it). -/
def findCompanyDomain (env : Env) (lead : Lead) : Option String :=
  let company := lead.company.getD ""
  let headline := lead.headline.getD ""
  let names0 : List String := if company ≠ "" then [company] else []
  let names1 := names0 ++
    (if headline ≠ "" then
      (([" at ", " @ ", " - "] : List String).filterMap (fun marker =>
        if pyIn marker headline then
          let parts := pySplitOn marker headline
          if parts.length ≥ 2 then some (pyRstrip ['.'] (pyStrip (parts.getLastD "")))
          else none
        else none)) ++
      (match searchCapA matchRoleAt (headline.toList.length + 1) headline.toList with
       | some cap => [pyStrip cap]
       | none => []) ++
      (match searchCapA matchAtConnAt (headline.toList.length + 1) headline.toList with
       | some cap => [pyStrip cap]
       | none => [])
    else [])
  let uniq := (names1.foldl (fun (acc : List String × List String) name =>
    let clean := pyStrip (String.mk (name.toList.filter (fun c => pyWord c ∨ pySpace c)))
    if clean ≠ "" ∧ ¬ acc.1.contains (pyLower clean) ∧ clean.length > 2 then
      (acc.1 ++ [pyLower clean], acc.2 ++ [clean])
    else acc) ([], [])).2
  (uniq.take 3).findSome? (fun name =>
    match guessDomain env name with
    | some d => if d ≠ "" then some d else none
    | none => none)

/-! ### Candidate generation, scraping of bio links, hunter.io -/

/-- `LeadEnricher._generate_email_candidates`. -/
def generateEmailCandidates (fullName website : String) : List String :=
  match extractDomain website with
  | none => []
  | some domain =>
    if domain = "" then []
    else
      let parts := pyWords (pyStrip (pyLower fullName))
      if parts.length < 2 then []
      else
        let first := parts.headD ""
        let last := parts.getLastD ""
        [first ++ "." ++ last ++ "@" ++ domain,
         first ++ "@" ++ domain,
         first ++ last ++ "@" ++ domain,
         pyTake1 first ++ last ++ "@" ++ domain,
         pyTake1 first ++ "." ++ last ++ "@" ++ domain,
         "contact@" ++ domain,
         "info@" ++ domain]

/-- Exclusion class of the bio-link URL pattern: everything except
whitespace, angle brackets, double quote, braces, pipe, backslash, caret,
backtick and square brackets. -/
def urlExclCl (c : Char) : Bool :=
  ¬ (pySpace c ∨ c = '<' ∨ c = '>' ∨ c = '"' ∨ c = Char.ofNat 123 ∨ c = Char.ofNat 125 ∨
     c = '|' ∨ c = '\\' ∨ c = '^' ∨ c = Char.ofNat 96 ∨ c = '[' ∨ c = ']')

/-- One attempted match of
`https?://[class]+|(?:linktr\.ee|stan\.store|beacons\.ai)/[class]+`. -/
def bioLinkMatchAt (cs : List Char) : Option (List Char × List Char) :=
  let alt1 : Option (List Char × List Char) :=
    if startsWithL "http".toList cs then
      let sPart := optCl (fun c => c = 's') (cs.drop 4)
      if startsWithL "://".toList sPart.2 then
        let run := (sPart.2.drop 3).takeWhile urlExclCl
        if run = [] then none
        else some ("http".toList ++ sPart.1 ++ "://".toList ++ run,
          (sPart.2.drop 3).drop run.length)
      else none
    else none
  match alt1 with
  | some m => some m
  | none =>
    (["linktr.ee", "stan.store", "beacons.ai"] : List String).findSome? (fun d =>
      if startsWithL d.toList cs then
        match cs.drop d.length with
        | '/' :: r =>
          let run := r.takeWhile urlExclCl
          if run = [] then none
          else some (d.toList ++ '/' :: run, r.drop run.length)
        | _ => none
      else none)

/-- `re.findall` scan of the bio-link URL pattern. -/
def bioLinkScanA : Nat → List Char → List String
  | 0, _ => []
  | fuel + 1, cs =>
    match bioLinkMatchAt cs with
    | some (mt, rest) => String.mk mt :: bioLinkScanA fuel rest
    | none =>
      match cs with
      | [] => []
      | _ :: t => bioLinkScanA fuel t

/-- `LeadEnricher._extract_bio_links`. -/
def extractBioLinks (bio : String) : List String :=
  if bio = "" then []
  else
    (bioLinkScanA (bio.toList.length + 1) bio.toList).map (fun link =>
      let l2 := if pyStartsWith "http" link then link else "https://" ++ link
      pyRstrip ".,;:!?)".toList l2)

/-- `LeadEnricher._scrape_link_page`. -/
def scrapeLinkPage (env : Env) (url : String) : TextContacts :=
  match env.fetch url with
  | none => ⟨none, none⟩
  | some html =>
    let valid := (emailFindall html).filter isValidEmail
    let em := if valid ≠ [] then valid.head? else none
    let ph := match extractPhoneFromText html with
      | some p => if p ≠ "" then some p else none
      | none => none
    ⟨em, ph⟩

/-- `LeadEnricher._find_with_hunter` (the HTTP call and response-shape
handling is the `hunterFind` oracle; exceptions and missing fields are its
`none`). -/
def findWithHunter (env : Env) (fullName website : Option String) : Option String :=
  if ¬ truthyO env.hunterKey ∨ ¬ truthyO fullName ∨ ¬ truthyO website then none
  else
    match extractDomain (website.getD "") with
    | none => none
    | some domain =>
      if domain = "" then none
      else
        let parts := pyWords (fullName.getD "")
        if parts.length < 2 then none
        else
          match env.hunterFind domain (parts.headD "") (parts.getLastD "") with
          | some e => if e ≠ "" then some e else none
          | none => none

/-- Business-keyword list of `_calculate_lead_score`. -/
def leadKeywords : List String :=
  ["coach", "consultant", "ceo", "founder", "entrepreneur",
   "agency", "business", "owner", "director", "manager"]

/-- `LeadEnricher._calculate_lead_score` over the assembled record.
`lead_data.get('follower_count', 0)` yields `0` when the key is absent but
`None` when it is present with value `None`; comparing `None` or a string
against an integer raises `TypeError`, the one exception this method can
raise. -/
def calculateLeadScore (e : Enriched) : Except PyErr Int :=
  let s1 : Int := if truthyO e.email then
      30 + (if e.email_source = some "hunter.io" then 5 else 0) else 0
  let s2 : Int := if truthyO e.phone then 30 else 0
  let s3 : Int := if e.base.is_verified then 10 else 0
  match e.base.follower_count.getD (.int 0) with
  | .noneV => .error .typeError
  | .str _ => .error .typeError
  | .int f =>
    let s4 : Int :=
      if 5000 ≤ f ∧ f ≤ 50000 then 15
      else if 1000 ≤ f ∧ f ≤ 100000 then 10
      else if f > 0 then 5
      else 0
    let s5 : Int := if truthyO e.base.website then 10 else 0
    let bioLower := pyLower (e.base.bio.getD "")
    let s6 : Int := if leadKeywords.any (fun k => pyIn k bioLower) then 5 else 0
    .ok (min (s1 + s2 + s3 + s4 + s5 + s6) 100)

/-! ### `enrich_lead` assembly -/

/-- Module constant `useless_domains` of `enrich_lead`. -/
def uselessDomains : List String :=
  ["youtube.com", "youtu.be", "instagram.com", "tiktok.com",
   "twitter.com", "x.com", "facebook.com", "linktr.ee",
   "stan.store", "beacons.ai", "bit.ly", "spotify.com"]

/-- `website and not any(d in website.lower() for d in useless_domains)`. -/
def websiteUseful (website : String) : Bool :=
  website ≠ "" ∧ ¬ uselessDomains.any (fun d => pyIn d (pyLower website))

/-- Case-insensitive dedup of candidates, keeping the first occurrence. -/
def dedupCandidates (cands : List (String × String)) : List (String × String) :=
  (cands.foldl (fun (acc : List String × List (String × String)) c =>
    if acc.1.contains (pyLower c.1) then acc
    else (acc.1 ++ [pyLower c.1], acc.2 ++ [c])) ([], [])).2

/-- The selection loop of `enrich_lead`: score every unique candidate, keep
the strictly highest score (`best_score` starts at `-1`, ties keep the
first seen). -/
def selectBest (env : Env) (cands : List (String × String)) (siteCnt : Nat) :
    Option ScoredEmail :=
  ((dedupCandidates cands).foldl (fun (acc : Option ScoredEmail × Int) c =>
    let scored := scoreAndVerifyEmail env c.1 c.2 (c.2 = "pattern") siteCnt
    if scored.score > acc.2 then (some scored, scored.score) else acc) (none, -1)).1

/-- The `smtp_guess` fallback: probe the first five generated candidates in
order and keep the first that exists and is not catch-all. -/
def smtpGuess (env : Env) (cands : List String) : Option String :=
  (cands.take 5).find? (fun c =>
    let r := verifyEmailSmtp env c
    r.exists' ∧ ¬ r.accept_all)

/-- The bio-link loop: scrape up to three links, appending email candidates
(source `bio_link`) and filling the phone if still unset. -/
def bioLinksFold (env : Env) (links : List String) (phone0 : Option String) :
    List (String × String) × Option String :=
  (links.take 3).foldl (fun (acc : List (String × String) × Option String) link =>
    let info := scrapeLinkPage env link
    let cands := if truthyO info.email then acc.1 ++ [(info.email.getD "", "bio_link")]
      else acc.1
    let ph := if truthyO info.phone ∧ ¬ truthyO acc.2 then info.phone else acc.2
    (cands, ph)) ([], phone0)

/-- `if best: enriched['email'|'email_score'|'email_source'|'email_verified'] = ...`. -/
def applySelection (e : Enriched) (best : Option ScoredEmail) : Enriched :=
  match best with
  | some b =>
    { e with
      email := some b.email
      email_score := some b.score
      email_source := some b.source
      email_verified := some b.verified }
  | none => e

/-- `if not enriched.get('email') and full_name and work_domain:
enriched['possible_emails'] = _generate_email_candidates(...)`. -/
def applyPossible (e : Enriched) (fullName workDomain : Option String) : Enriched :=
  if ¬ truthyO e.email ∧ truthyO fullName ∧ truthyO workDomain then
    { e with
      possible_emails := some
        (generateEmailCandidates (fullName.getD "") ("https://" ++ workDomain.getD "")) }
  else e

/-- `LeadEnricher.enrich_lead` up to (excluding) the final
`_calculate_lead_score` call: the candidate-generation pipeline, the
phone/company-domain assignments, candidate selection and the
`possible_emails` fallback. -/
def enrichSansScore (env : Env) (lead : Lead) : Enriched :=
  let bioText := lead.bio.getD ""
  let bioContacts := extractFromText bioText
  let cands0 : List (String × String) :=
    if truthyO bioContacts.email then [(bioContacts.email.getD "", "bio")] else []
  let phone0 : Option String := if truthyO bioContacts.phone then bioContacts.phone else none
  let website := lead.website.getD ""
  let useful := websiteUseful website
  let si1 : Option SiteInfo := if useful then some (deepScrapeWebsite env website) else none
  let siteEmails1 : List String := match si1 with | some si => si.all_emails | none => []
  let cands1 := cands0 ++ (match si1 with
    | some si => if truthyO si.email then [(si.email.getD "", "website")] else []
    | none => [])
  let phone1 := match si1 with
    | some si => if truthyO si.phone ∧ ¬ truthyO phone0 then si.phone else phone0
    | none => phone0
  let cdBlock : Option String × List String × List (String × String) × Option String :=
    if ¬ useful ∨ siteEmails1 = [] then
      match findCompanyDomain env lead with
      | some cd =>
        if ¬ useful then
          let si := deepScrapeWebsite env ("https://" ++ cd)
          (some cd, si.all_emails,
            (if truthyO si.email then [(si.email.getD "", "website")] else []),
            (if truthyO si.phone ∧ ¬ truthyO phone1 then si.phone else phone1))
        else (some cd, siteEmails1, [], phone1)
      | none => (none, siteEmails1, [], phone1)
    else (none, siteEmails1, [], phone1)
  let companyDomain := cdBlock.1
  let siteEmails := cdBlock.2.1
  let cands2 := cands1 ++ cdBlock.2.2.1
  let phone2 := cdBlock.2.2.2
  let workDomain := pyOrO companyDomain (if useful then extractDomain website else none)
  let cands3 := cands2 ++
    (if truthyO lead.full_name ∧ truthyO workDomain then
      match predictEmailFromPattern (lead.full_name.getD "")
          ("https://" ++ workDomain.getD "") siteEmails with
      | some pe => if pe ≠ "" then [(pe, "pattern")] else []
      | none => []
    else [])
  let cands4 := cands3 ++
    (if cands3 = [] ∧ truthyO lead.full_name ∧ truthyO workDomain then
      match smtpGuess env (generateEmailCandidates (lead.full_name.getD "")
          ("https://" ++ workDomain.getD "")) with
      | some c => [(c, "smtp_guess")]
      | none => []
    else [])
  let cands5 := cands4 ++
    (if truthyO env.hunterKey ∧ truthyO lead.full_name ∧ website ≠ "" then
      match findWithHunter env lead.full_name lead.website with
      | some he => if he ≠ "" then [(he, "hunter.io")] else []
      | none => []
    else [])
  let bl := bioLinksFold env (extractBioLinks bioText) phone2
  let cands6 := cands5 ++ bl.1
  let phoneF := bl.2
  let best := if cands6 ≠ [] then selectBest env cands6 siteEmails.length else none
  let e0 : Enriched :=
    { base := lead
      phone := phoneF
      company_domain := companyDomain
      email := none
      email_score := none
      email_source := none
      email_verified := none
      possible_emails := none
      lead_score := none }
  applyPossible (applySelection e0 best) lead.full_name workDomain

/-- `LeadEnricher.enrich_lead`: the pipeline, then
`enriched['lead_score'] = self._calculate_lead_score(enriched)`, whose
`TypeError` (non-integer follower counts) propagates out. -/
def enrichLead (env : Env) (lead : Lead) : Except PyErr Enriched :=
  let e := enrichSansScore env lead
  match calculateLeadScore e with
  | .ok s => .ok { e with lead_score := some s }
  | .error err => .error err

/-- `LeadEnricher.enrich_bulk`: every submitted lead yields one future; the
results are collected in completion order (`order`, a permutation of the
indices); a pipeline exception makes the orchestrator append the submitted
lead itself (`futures[future]`). -/
def enrichBulk (env : Env) (leads : List Lead) (order : List (Fin leads.length)) :
    List (Enriched ⊕ Lead) :=
  order.map (fun i =>
    match enrichLead env (leads.get i) with
    | .ok e => Sum.inl e
    | .error _ => Sum.inr (leads.get i))

/-! ### Fixtures: concrete environments and profiles used by the claims -/

/-- A network environment where every external probe fails. -/
def env0 : Env :=
  { fetch := fun _ => none
    mx := fun _ => none
    smtp := fun _ _ => .failBefore
    hunterKey := none
    hunterFind := fun _ _ _ => none }

/-- An environment whose MX lookups always succeed and whose SMTP sessions
all have the given outcome. -/
def envMx (ph : SmtpPhase) : Env :=
  { fetch := fun _ => none
    mx := fun _ => some "mx.test"
    smtp := fun _ _ => ph
    hunterKey := none
    hunterFind := fun _ _ _ => none }

/-- An environment where exactly `acmecorp.com` has an MX record. -/
def envAcmecorp : Env :=
  { fetch := fun _ => none
    mx := fun d => if d = "acmecorp.com" then some "mx1.acmecorp.com" else none
    smtp := fun _ _ => .failBefore
    hunterKey := none
    hunterFind := fun _ _ _ => none }

/-- A profile whose `follower_count` key is present with value `None`. -/
def c1Lead : Lead := { follower_count := some .noneV }

/-- The record `enrich_lead` produces for an empty profile under `env0`. -/
def c4Out : Enriched := { base := {}, lead_score := some 0 }

/-- The `company="Acme Corp"`, headline-absent profile of the C5 scenario. -/
def acmeLead : Lead := { company := some "Acme Corp" }

/-- The site emails known at `acme.io` in the C6 scenario. -/
def c6SiteEmails : List String := ["jane.doe@acme.io"]

/-- The `follower_count` slot compares cleanly against integers: the key is
absent (`.get('follower_count', 0)` yields `0`) or holds an integer. -/
def followerOkB : Option PyNum → Bool
  | none => true
  | some (.int _) => true
  | some .noneV => false
  | some (.str _) => false

/-- The `SourceKind` values recognised by `_score_and_verify_email`
(`hunter.io` is the source string the pipeline uses for the API). -/
def sourceKinds : List String :=
  ["bio", "website", "contact_page", "hunter.io", "smtp_guess", "bio_link", "pattern"]

/-- The digit-and-plus normalization `re.sub(r'[^\d+]', '', ·)`. -/
def phoneNormPD (s : String) : List Char := s.toList.filter plusDigit

/-! ## Theorems settling the claims -/

/-- C5, counterexample: with `company="Acme Corp"` and no headline, in an
environment where exactly `acmecorp.com` has a resolvable MX record, the
resolver returns nothing — refuting the claim that the guesses tried are
`acmecorp.com`, `acmecorp.io`, `acmecorp.co` (whose first resolvable member
would become the company domain). -/
theorem c5_counterexample :
    findCompanyDomain envAcmecorp acmeLead = none ∧
    findCompanyDomain envAcmecorp acmeLead ≠ some "acmecorp.com" := by
  constructor
  · rfl
  · intro h
    cases h.symm.trans (rfl : findCompanyDomain envAcmecorp acmeLead = none)

/-- C5, amended: for `company="Acme Corp"` and headline absent, the trailing
legal suffix `Corp` is stripped before slugifying, so the MX-checked guesses
are `acme.com`, `acme.io`, `acme.co` in that order, and the first with a
resolvable MX record is returned as the company domain. -/
theorem c5_guess_order_amended (env : Env) :
    findCompanyDomain env acmeLead =
      (["acme.com", "acme.io", "acme.co"] : List String).find?
        (fun d => (env.mx d).isSome) := by
  have hg : guessDomain env "Acme Corp" =
      (["acme.com", "acme.io", "acme.co"] : List String).find?
        (fun d => (env.mx d).isSome) := rfl
  have hf : findCompanyDomain env acmeLead = List.findSome?
      (fun name => match guessDomain env name with
        | some d => if d ≠ "" then some d else none
        | none => none) ["Acme Corp"] := rfl
  rw [hf, ← hg]
  cases hguess : guessDomain env "Acme Corp" with
  | none => simp [List.findSome?, hguess]
  | some d =>
    have hd : d ≠ "" := by
      have hm := List.mem_of_find?_eq_some (hg ▸ hguess)
      simp only [List.mem_cons, List.not_mem_nil, or_false] at hm
      rcases hm with rfl | rfl | rfl <;> decide
    simp [List.findSome?, hguess, hd]

/-- C6: evaluating `_predict_email_from_pattern` at the failing input — the
projected address `jane.doe@acme.io` already occurs among the known domain
emails, yet it is returned as the pattern candidate (both branches of the
final conditional in the source return `predicted`), contradicting the claim
that such a projection is discarded. -/
theorem c6_pattern_duplicate_returned :
    predictEmailFromPattern "Jane Doe" "https://acme.io" c6SiteEmails =
      some "jane.doe@acme.io" ∧
    (c6SiteEmails.map pyLower).contains (pyLower "jane.doe@acme.io") = true := by
  exact ⟨rfl, rfl⟩

/-- C7, counterexample: a session answering 250 to both the candidate and
the random nonexistent address yields `accept_all = true` but score `50`
(`max (10 + 80 - 40) 30`), not a score of at most 30 as claimed. -/
theorem c7_counterexample :
    verifyEmailSmtp (envMx (.complete 250 250)) "jane@acme.io" =
      { exists' := true, accept_all := true, score := 50 } ∧
    ¬ ((verifyEmailSmtp (envMx (.complete 250 250)) "jane@acme.io").score ≤ 30) := by
  exact ⟨rfl, by decide⟩

/-- C7, amended: when MX resolution succeeds and the SMTP session returns
250 for both the candidate and the random nonexistent address, the verifier
reports `accept_all = true` with resulting score exactly 50 (the raw 90
reduced by 40, floored at 30). -/
theorem c7_catchall_amended (env : Env) (email lp dom host : String)
    (hsplit : pySplitOn "@" email = [lp, dom]) (hdom : dom ≠ "")
    (hmx : env.mx dom = some host)
    (hsmtp : env.smtp host email = .complete 250 250) :
    (verifyEmailSmtp env email).accept_all = true ∧
    (verifyEmailSmtp env email).score = 50 := by
  unfold verifyEmailSmtp
  rw [hsplit]
  simp only [List.length_cons, List.length_nil, List.getD, List.get?]
  simp [hdom, hmx, hsmtp]

/-- C7, witness. -/
theorem c7_witness :
    (verifyEmailSmtp (envMx (.complete 250 250)) "bob@acme.io").accept_all = true ∧
    (verifyEmailSmtp (envMx (.complete 250 250)) "bob@acme.io").score = 50 :=
  c7_catchall_amended (envMx (.complete 250 250)) "bob@acme.io" "bob" "acme.io"
    "mx.test" rfl (by decide) rfl rfl

/-- C8, counterexample: after a successful MX lookup, a caught
connection-class exception before the candidate's RCPT answer yields score
30 (the MX base 10 plus the flat 20), not 20 as claimed; and an exception
after the candidate's RCPT already returned 250 yields `exists = true` with
score 110, not `exists = false` with score 20. -/
theorem c8_counterexample :
    (verifyEmailSmtp (envMx .failBefore) "jane@acme.io" =
      { exists' := false, accept_all := false, score := 30 } ∧
      (verifyEmailSmtp (envMx .failBefore) "jane@acme.io").score ≠ 20) ∧
    (verifyEmailSmtp (envMx (.failBetween 250)) "jane@acme.io" =
      { exists' := true, accept_all := false, score := 110 }) := by
  exact ⟨⟨rfl, by decide⟩, rfl⟩

/-- C8, amended: with MX resolution succeeding, a caught
connection/timeout/disconnect exception before the candidate's RCPT
response is processed yields `exists = false`, `accept_all = false`, score
30 (10 for MX plus the flat 20); a caught exception after the candidate's
RCPT returned code `c` yields score `10 + 80 + 20` with `exists = true`
when `c = 250`, and score 30 with `exists = false` otherwise. -/
theorem c8_exception_amended (env : Env) (email lp dom host : String)
    (hsplit : pySplitOn "@" email = [lp, dom]) (hdom : dom ≠ "")
    (hmx : env.mx dom = some host) :
    (env.smtp host email = .failBefore →
      verifyEmailSmtp env email = { exists' := false, accept_all := false, score := 30 }) ∧
    (∀ c, env.smtp host email = .failBetween c →
      verifyEmailSmtp env email =
        (if c = 250 then { exists' := true, accept_all := false, score := 110 }
         else { exists' := false, accept_all := false, score := 30 } : SmtpResult)) := by
  constructor
  · intro hsmtp
    unfold verifyEmailSmtp
    rw [hsplit]
    simp [hdom, hmx, hsmtp]
  · intro c hsmtp
    unfold verifyEmailSmtp
    rw [hsplit]
    by_cases hc : c = 250 <;> simp [hdom, hmx, hsmtp, hc]

/-- C8, witness. -/
theorem c8_witness :
    verifyEmailSmtp (envMx .failBefore) "bob@acme.io" =
      { exists' := false, accept_all := false, score := 30 } :=
  (c8_exception_amended (envMx .failBefore) "bob@acme.io" "bob" "acme.io"
    "mx.test" rfl (by decide) rfl).1 rfl

/-- C10: email validity and website usefulness are substring decisions — an
address whose lowered text contains a blacklisted domain anywhere is
invalid, and a website whose lowered text contains a social/aggregator
domain anywhere is not useful (hence, by the guard in `enrich_lead`, never
deep-scraped). -/
theorem c10_substring_semantics (email w b d : String)
    (hb : b ∈ EMAIL_BLACKLIST) (hcon : pyIn b (pyLower email) = true)
    (hd : d ∈ uselessDomains) (hw : pyIn d (pyLower w) = true) :
    isValidEmail email = false ∧ websiteUseful w = false := by
  constructor
  · unfold isValidEmail
    have : EMAIL_BLACKLIST.any (fun x => pyIn x (pyLower email)) = true :=
      List.any_eq_true.mpr ⟨b, hb, hcon⟩
    simp [this]
  · unfold websiteUseful
    have : uselessDomains.any (fun x => pyIn x (pyLower w)) = true :=
      List.any_eq_true.mpr ⟨d, hd, hw⟩
    simp [this]

/-- C10, witness: `notexample.com` contains `example.com` as a substring,
and an Instagram profile URL contains `instagram.com`. -/
theorem c10_witness :
    isValidEmail "user@notexample.com" = false ∧
    websiteUseful "https://instagram.com/jane" = false :=
  c10_substring_semantics "user@notexample.com" "https://instagram.com/jane"
    "example.com" "instagram.com" (by decide) (by decide) (by decide) (by decide)

/-- C2: `enrich_bulk` submits one future per lead and collects one result
per future, so over any completion order (a permutation of the indices) it
returns exactly N results, and a lead whose pipeline raises appears in the
output as the submitted record itself, with no new fields. -/
theorem c2_enrichBulk_complete (env : Env) (leads : List Lead)
    (order : List (Fin leads.length))
    (hperm : order.Perm (List.finRange leads.length)) :
    (enrichBulk env leads order).length = leads.length ∧
    ∀ i : Fin leads.length, ∀ err, enrichLead env (leads.get i) = .error err →
      Sum.inr (leads.get i) ∈ enrichBulk env leads order := by
  constructor
  · simp [enrichBulk, hperm.length_eq]
  · intro i err herr
    have hi : i ∈ order := (hperm.mem_iff).mpr (List.mem_finRange i)
    refine List.mem_map.mpr ⟨i, hi, ?_⟩
    simp only [List.get_eq_getElem] at herr
    simp [herr]

/-- C2, witness: a one-element batch whose single lead raises `TypeError`
(follower count `None`) yields that lead back unmodified. -/
theorem c2_witness :
    Sum.inr c1Lead ∈ enrichBulk env0 [c1Lead] (List.finRange 1) :=
  (c2_enrichBulk_complete env0 [c1Lead] (List.finRange 1)
    (List.Perm.refl _)).2 ⟨0, by decide⟩ .typeError rfl

/-- Bounds of `min x 100` for non-negative `x`. -/
theorem min100_bounds (x : Int) (h : 0 ≤ x) : 0 ≤ min x 100 ∧ min x 100 ≤ 100 :=
  ⟨le_min h (by norm_num), min_le_right _ _⟩

/-- An if-expression with non-negative branches is non-negative. -/
theorem ite_nonneg {c : Prop} [Decidable c] {a b : Int} (ha : 0 ≤ a) (hb : 0 ≤ b) :
    0 ≤ ite c a b := by
  split_ifs <;> assumption

/-- C3: for every recognised source kind and every SMTP outcome the
candidate score published by `_score_and_verify_email` lies in `[0,100]`,
and every lead score `_calculate_lead_score` returns lies in `[0,100]`. -/
theorem c3_score_bounds (env : Env) (email source : String) (pm : Bool) (cnt : Nat)
    (hs : source ∈ sourceKinds) (e : Enriched) (s : Int)
    (hc : calculateLeadScore e = .ok s) :
    (0 ≤ (scoreAndVerifyEmail env email source pm cnt).score ∧
      (scoreAndVerifyEmail env email source pm cnt).score ≤ 100) ∧
    (0 ≤ s ∧ s ≤ 100) := by
  constructor
  · simp only [sourceKinds, List.mem_cons, List.not_mem_nil, or_false] at hs
    rcases hs with rfl | rfl | rfl | rfl | rfl | rfl | rfl <;>
      · simp only [scoreAndVerifyEmail]
        split_ifs <;> exact min100_bounds _ (by norm_num)
  · simp only [calculateLeadScore] at hc
    rcases hm : e.base.follower_count.getD (.int 0) with f | _ | _ <;>
      simp only [hm] at hc
    · rw [Except.ok.injEq] at hc
      subst hc
      refine min100_bounds _ ?_
      repeat first | apply add_nonneg | apply ite_nonneg | norm_num
    · cases hc
    · cases hc

/-- C3, witness. -/
theorem c3_witness :
    (0 ≤ (scoreAndVerifyEmail env0 "a@b.co" "bio" false 0).score ∧
      (scoreAndVerifyEmail env0 "a@b.co" "bio" false 0).score ≤ 100) ∧
    (0 ≤ (0 : Int) ∧ (0 : Int) ≤ 100) :=
  c3_score_bounds env0 "a@b.co" "bio" false 0 (by decide) { base := {} } 0 rfl

/-- `applySelection` never touches the input copy. -/
theorem applySelection_base (e : Enriched) (b : Option ScoredEmail) :
    (applySelection e b).base = e.base := by cases b <;> rfl

/-- `applySelection` never touches `possible_emails`. -/
theorem applySelection_possible (e : Enriched) (b : Option ScoredEmail) :
    (applySelection e b).possible_emails = e.possible_emails := by cases b <;> rfl

/-- `applyPossible` never touches the input copy. -/
theorem applyPossible_base (e : Enriched) (n w : Option String) :
    (applyPossible e n w).base = e.base := by
  unfold applyPossible
  split <;> rfl

/-- If `possible_emails` was unset and the final email is truthy, the
`possible_emails` fallback leaves it unset: the guard requires the email to
be falsy and does not change the email. -/
theorem applyPossible_excl (e : Enriched) (n w : Option String)
    (h0 : e.possible_emails = none) :
    truthyO (applyPossible e n w).email = true →
    (applyPossible e n w).possible_emails = none := by
  unfold applyPossible
  split
  · rename_i hcond
    intro ht
    exact absurd ht hcond.1
  · intro _
    exact h0

/-- The pipeline starts from a copy of the input profile and never edits
the copied fields. -/
theorem enrichSansScore_base (env : Env) (lead : Lead) :
    (enrichSansScore env lead).base = lead := by
  simp only [enrichSansScore]
  rw [applyPossible_base, applySelection_base]

/-- A truthy selected email forces `possible_emails` to stay absent. -/
theorem enrichSansScore_excl (env : Env) (lead : Lead) :
    truthyO (enrichSansScore env lead).email = true →
    (enrichSansScore env lead).possible_emails = none := by
  intro ht
  simp only [enrichSansScore] at ht ⊢
  exact applyPossible_excl _ _ _ ((applySelection_possible _ _).trans rfl) ht

/-- `_calculate_lead_score` returns a score whenever the follower slot is
absent or an integer. -/
theorem calculateLeadScore_ok (e : Enriched)
    (h : followerOkB e.base.follower_count = true) :
    ∃ s, calculateLeadScore e = .ok s := by
  unfold calculateLeadScore
  rcases hm : e.base.follower_count.getD (.int 0) with f | _ | _
  · exact ⟨_, rfl⟩
  · exfalso
    rcases hfc : e.base.follower_count with _ | g
    · rw [hfc] at hm
      simp at hm
    · rw [hfc] at hm h
      simp only [Option.getD_some] at hm
      subst hm
      simp [followerOkB] at h
  · exfalso
    rcases hfc : e.base.follower_count with _ | g
    · rw [hfc] at hm
      simp at hm
    · rw [hfc] at hm h
      simp only [Option.getD_some] at hm
      subst hm
      simp [followerOkB] at h

/-- C1, counterexample: a profile whose `follower_count` key holds `None`
makes `enrich_lead` raise `TypeError` inside `_calculate_lead_score`
(`5000 <= None` is unorderable), refuting "never raises" as claimed for
`None` follower counts. -/
theorem c1_counterexample : enrichLead env0 c1Lead = .error .typeError := rfl

/-- C1, amended: `enrich_lead` never raises and returns an enriched record
for every profile whose `follower_count` is absent or an integer; when it is
`None` or a non-numeric value, the band comparison in
`_calculate_lead_score` raises `TypeError` (every other step is total for
arbitrary string fields). -/
theorem c1_enrichLead_total (env : Env) (lead : Lead)
    (h : followerOkB lead.follower_count = true) :
    ∃ e, enrichLead env lead = .ok e := by
  have hb : (enrichSansScore env lead).base = lead := enrichSansScore_base env lead
  obtain ⟨s, hs⟩ := calculateLeadScore_ok (enrichSansScore env lead) (by rw [hb]; exact h)
  exact ⟨_, by simp only [enrichLead]; rw [hs]⟩

/-- C1, witness. -/
theorem c1_witness : ∃ e, enrichLead env0 ({} : Lead) = .ok e :=
  c1_enrichLead_total env0 {} rfl

/-- C4: an `EnrichedLead` produced by `enrich_lead` never carries both a
truthy `email` and a non-empty `possible_emails`: the fallback only fires
when no truthy email was selected and the earlier stages leave
`possible_emails` unset. -/
theorem c4_email_possible_exclusive (env : Env) (lead : Lead) (e : Enriched)
    (h : enrichLead env lead = .ok e) :
    ¬ (truthyO e.email = true ∧ e.possible_emails.getD [] ≠ []) := by
  rintro ⟨ht, hp⟩
  simp only [enrichLead] at h
  cases hc : calculateLeadScore (enrichSansScore env lead) with
  | error err =>
    rw [hc] at h
    cases h
  | ok s =>
    rw [hc] at h
    rw [Except.ok.injEq] at h
    subst h
    have hnone := enrichSansScore_excl env lead ht
    apply hp
    show ((enrichSansScore env lead).possible_emails).getD [] = []
    rw [hnone]
    rfl

/-- C4, witness. -/
theorem c4_witness : ¬ (truthyO c4Out.email = true ∧ c4Out.possible_emails.getD [] ≠ []) :=
  c4_email_possible_exclusive env0 {} c4Out rfl

/-- Dropping a run of `q`-characters does not change a `p`-filter when the
classes are disjoint. -/
theorem filter_dropWhile_disjoint (p q : Char → Bool)
    (hpq : ∀ c, q c = true → p c = false) :
    ∀ l : List Char, (l.dropWhile q).filter p = l.filter p := by
  intro l
  induction l with
  | nil => rfl
  | cons c t ih =>
    rw [List.dropWhile_cons]
    by_cases hq : q c
    · rw [if_pos hq, ih, List.filter_cons, hpq c hq]
      simp
    · rw [if_neg hq]

/-- `strip()` does not change the `[^\d+]`-normalization (whitespace is
neither a digit nor `+`). -/
theorem space_not_plusDigit (c : Char) (hc : pySpace c = true) : plusDigit c = false := by
  simp only [pySpace, Bool.or_eq_true, decide_eq_true_eq] at hc
  rcases hc with rfl | rfl | rfl | rfl | rfl | rfl <;> rfl

/-- Filtering for digits and `+` is invariant under Python `strip()`. -/
theorem filter_pyStripL (l : List Char) :
    (pyStripL l).filter plusDigit = l.filter plusDigit := by
  unfold pyStripL
  rw [List.filter_reverse, filter_dropWhile_disjoint _ _ space_not_plusDigit,
    List.filter_reverse, List.reverse_reverse,
    filter_dropWhile_disjoint _ _ space_not_plusDigit]

/-- Every phone the shared scan loop accepts has a digit-and-plus
normalization of length in `[10,15]` (the loop's guard, carried through the
final `strip()`). -/
theorem scanPhoneA_bounds (m : List Char → Option (List Char × List Char)) :
    ∀ fuel cs r, scanPhoneA m fuel cs = some r →
      10 ≤ (phoneNormPD r).length ∧ (phoneNormPD r).length ≤ 15 := by
  intro fuel
  induction fuel with
  | zero =>
    intro cs r h
    cases h
  | succ n ih =>
    intro cs r h
    simp only [scanPhoneA] at h
    cases hm : m cs with
    | some pr =>
      obtain ⟨cand, rest⟩ := pr
      rw [hm] at h
      have h' : (if 10 ≤ (cand.filter plusDigit).length ∧ (cand.filter plusDigit).length ≤ 15
          then some (String.mk (pyStripL cand)) else scanPhoneA m n rest) = some r := h
      by_cases hcond : 10 ≤ (cand.filter plusDigit).length ∧ (cand.filter plusDigit).length ≤ 15
      · rw [if_pos hcond, Option.some.injEq] at h'
        subst h'
        have hn : phoneNormPD (String.mk (pyStripL cand)) = cand.filter plusDigit := by
          show (pyStripL cand).filter plusDigit = cand.filter plusDigit
          exact filter_pyStripL cand
        rw [hn]
        exact hcond
      · rw [if_neg hcond] at h'
        exact ih rest r h'
    | none =>
      rw [hm] at h
      cases cs with
      | nil => cases h
      | cons c t => exact ih t r h

/-- The WhatsApp matcher only captures digit runs. -/
theorem waMatchAt_digits (cs d rest : List Char) (h : waMatchAt cs = some (d, rest)) :
    d.all Char.isDigit = true := by
  simp only [waMatchAt] at h
  split at h
  · split at h
    · cases h
    · rw [Option.some.injEq, Prod.mk.injEq] at h
      rw [← h.1]
      exact List.all_takeWhile
  · split at h
    · split at h
      · cases h
      · rw [Option.some.injEq, Prod.mk.injEq] at h
        rw [← h.1]
        exact List.all_takeWhile
    · cases h

/-- Every phone the WhatsApp scan loop accepts is a captured digit run of
length in `[10,15]`, prefixed with `+`. -/
theorem scanWaA_shape :
    ∀ fuel cs r, scanWaA fuel cs = some r →
      ∃ d : List Char, r = "+" ++ String.mk d ∧ d.all Char.isDigit = true ∧
        10 ≤ d.length ∧ d.length ≤ 15 := by
  intro fuel
  induction fuel with
  | zero =>
    intro cs r h
    cases h
  | succ n ih =>
    intro cs r h
    simp only [scanWaA] at h
    cases hm : waMatchAt cs with
    | some pr =>
      obtain ⟨d, rest⟩ := pr
      rw [hm] at h
      have h' : (if 10 ≤ d.length ∧ d.length ≤ 15
          then some ("+" ++ String.mk d) else scanWaA n rest) = some r := h
      by_cases hcond : 10 ≤ d.length ∧ d.length ≤ 15
      · rw [if_pos hcond, Option.some.injEq] at h'
        exact ⟨d, h'.symm, waMatchAt_digits cs d rest hm, hcond⟩
      · rw [if_neg hcond] at h'
        exact ih rest r h'
    | none =>
      rw [hm] at h
      cases cs with
      | nil => cases h
      | cons c t => exact ih t r h

/-- C9, counterexample: a text containing only a `wa.me/<digits>` link
yields no phone at all — the WhatsApp alternation has no `/` after
`wa.me`, so the digits never immediately follow the matched literal — and a
`tel:` link with nine digits and a `+` is accepted because the `[^\d+]`
normalization keeps the `+` (length 10), so its digit-only length is 9,
outside `[10,15]`. -/
theorem c9_counterexample :
    extractPhoneFromText "Visit https://wa.me/15551234567 now" = none ∧
    extractPhoneFromText "<a href=\"tel:+123456789\">call</a>" = some "+123456789" ∧
    (("+123456789" : String).toList.filter Char.isDigit).length = 9 := by
  exact ⟨rfl, rfl, rfl⟩

/-- C9, amended: phone extraction tries the `tel:` stage, then the WhatsApp
stage, then the visible-text stage, first hit winning; accepted `tel:` and
visible-text matches have a digit-and-`+` normalization of length in
`[10,15]` (so a `+` counts toward the bound), and accepted WhatsApp matches
are digit runs of length in `[10,15]` that immediately follow the matched
literal (no `/` is matched, so `wa.me/<digits>` links yield nothing there),
returned with a `+` prefix. -/
theorem c9_phone_amended (text : String) :
    (extractPhoneFromText text =
      match telStage text.toList with
      | some p => some p
      | none =>
        match waStage text.toList with
        | some p => some p
        | none => visibleStage text.toList) ∧
    (∀ r, telStage text.toList = some r →
      10 ≤ (phoneNormPD r).length ∧ (phoneNormPD r).length ≤ 15) ∧
    (∀ r, waStage text.toList = some r →
      ∃ d : List Char, r = "+" ++ String.mk d ∧ d.all Char.isDigit = true ∧
        10 ≤ d.length ∧ d.length ≤ 15) ∧
    (∀ r, visibleStage text.toList = some r →
      10 ≤ (phoneNormPD r).length ∧ (phoneNormPD r).length ≤ 15) := by
  refine ⟨rfl, ?_, ?_, ?_⟩
  · intro r h
    exact scanPhoneA_bounds telMatchAt _ _ _ h
  · intro r h
    exact scanWaA_shape _ _ _ h
  · intro r h
    simp only [visibleStage] at h
    cases h1 : scanPhoneA matchP1 ((visibleText text.toList).length + 1)
        (visibleText text.toList) with
    | some p =>
      rw [h1, Option.some.injEq] at h
      subst h
      exact scanPhoneA_bounds matchP1 _ _ _ h1
    | none =>
      rw [h1] at h
      cases h2 : scanPhoneA matchP2 ((visibleText text.toList).length + 1)
          (visibleText text.toList) with
      | some p =>
        rw [h2, Option.some.injEq] at h
        subst h
        exact scanPhoneA_bounds matchP2 _ _ _ h2
      | none =>
        rw [h2] at h
        exact scanPhoneA_bounds matchP3 _ _ _ h

/-- C9, witness: the `tel:` stage accepts `+1 (555) 123-4567`, whose
digit-and-`+` normalization has length 12. -/
theorem c9_witness :
    10 ≤ (phoneNormPD "+1 (555) 123-4567").length ∧
    (phoneNormPD "+1 (555) 123-4567").length ≤ 15 :=
  (c9_phone_amended "call <a href=\"tel:+1 (555) 123-4567\">now</a>").2.1
    "+1 (555) 123-4567" rfl

end Scout
